import Mathlib

/-!
Verification of the data-quality auditor pipeline
(`data_quality_auditor_v1_STABLE_030126.py`).

The program loads CSV records as string-to-string mappings, runs four
field validators (email, age, country, signup date) producing issue
dictionaries, aggregates them into a summary, filters them by a severity
threshold and maps the outcome to a process exit code.  This file is a
shallow embedding of that pure core: records are association lists of
strings, Python dictionaries for issues become a structure with
`Option`-valued entries for keys a validator may omit, and the one place
where a validator can raise (the `int` conversion inside the age
validator) is made explicit with `Except`.
-/

set_option autoImplicit false

namespace DQA

/-- A loaded record: a mapping from (already normalised) field names to raw
string values, embedded as an association list with the first binding of a
key winning, matching Python dictionary lookup. -/
structure Record where
  fields : List (String × String)
  deriving DecidableEq, Repr

/-- Python `record.get(key)`: the value bound to `key`, or `None`. -/
def Record.get (r : Record) (k : String) : Option String :=
  r.fields.lookup k

/-- Python `record.get(key, default)`. -/
def Record.getD (r : Record) (k d : String) : String :=
  (r.get k).getD d

/-- A Python value stored under the `value` key of an issue dictionary: the
validators store either a string, a parsed integer (age out of range), or
`None` (absent country field). -/
inductive PyVal where
  | str (s : String)
  | int (n : Int)
  | none
  deriving DecidableEq, Repr

/-- One issue dictionary as built by the validators.  Keys that some issue
dictionaries omit are `Option`-valued and default to `none` (key absent).
`issueMsg` embeds the stray `"issue"` key used by the email validator for
the at-sign-count rule (source line 101). -/
structure Issue where
  row : Nat
  field : String
  value : PyVal
  reason : Option String := Option.none
  issueMsg : Option String := Option.none
  severity : Option String := Option.none
  deriving DecidableEq, Repr

/-! ## Exit codes and severity ranks (module-level constants) -/

def EXIT_OK : Nat := 0
def EXIT_WARNING : Nat := 5
def EXIT_ISSUES_FOUND : Nat := 10
def EXIT_INPUT_ERROR : Nat := 20
def EXIT_INTERNAL_ERROR : Nat := 30

/-- The `SEVERITY_RANK` dictionary: `Option.none` models a missing key. -/
def SEVERITY_RANK : String → Option Nat
  | "info" => some 1
  | "warning" => some 2
  | "error" => some 3
  | _ => Option.none

/-- The value of `--severity-threshold`.  The argparse declaration restricts
the flag to the choices `info`, `warning`, `error`, so the threshold is one
of exactly these three strings. -/
inductive Threshold where
  | info
  | warning
  | error
  deriving DecidableEq, Repr

/-- The string the threshold flag carries. -/
def Threshold.toStr : Threshold → String
  | .info => "info"
  | .warning => "warning"
  | .error => "error"

/-- Rank of a threshold: `SEVERITY_RANK[threshold]`, total because argparse
restricts the choices to the three keys of the dictionary. -/
def Threshold.rank (t : Threshold) : Nat :=
  (SEVERITY_RANK t.toStr).getD 0

/-- The command-line arguments the pure pipeline depends on. -/
structure Args where
  severity_threshold : Threshold
  fail_on_warning : Bool
  deriving DecidableEq, Repr

/-! ## Python string helpers

The Python string methods the validators use are modelled as executable
functions over the character list of the string, so that every concrete
run of a validator reduces inside the kernel.  Whitespace is the ASCII
whitespace recognised by `Char.isWhitespace`, a faithful restriction of
the Unicode whitespace `str.strip` removes.

The age validator guards the conversion `int(age_raw)` with
`age_raw.isdigit()`.  These two operations disagree on Unicode: `isdigit`
accepts every character whose Unicode `Numeric_Type` is `Digit` or
`Decimal`, while `int` accepts only `Decimal` digits.  We model the
character properties exactly on the Latin-1 range (code points below
`U+0100`): there the decimal digits are the ASCII digits `0`-`9`, and the
superscript digits one, two, three additionally satisfy the `isdigit`
property without being decimal. -/

/-- Python `s.strip()`: remove whitespace from both ends. -/
def pyStrip (s : String) : String :=
  ⟨((s.toList.dropWhile Char.isWhitespace).reverse.dropWhile
      Char.isWhitespace).reverse⟩

/-- Python `s.upper()` over the ASCII range. -/
def pyUpper (s : String) : String :=
  ⟨s.toList.map Char.toUpper⟩

/-- Python `s.split(sep)` for a one-character separator, on character
lists: splitting the empty string gives one empty part, and every
occurrence of the separator opens a new part. -/
def pySplitChar (sep : Char) : List Char → List (List Char)
  | [] => [[]]
  | c :: rest =>
    let r := pySplitChar sep rest
    if c = sep then [] :: r
    else
      match r with
      | h :: t => (c :: h) :: t
      | [] => [[c]]

/-- Python `s.split(sep)` for a one-character separator. -/
def pySplit (sep : Char) (s : String) : List String :=
  (pySplitChar sep s.toList).map String.mk

/-- Python `c in s` for a single character. -/
def pyContainsChar (s : String) (c : Char) : Bool :=
  s.toList.contains c

/-- Python `s.startswith(c)` for a one-character prefix. -/
def pyStartsWithChar (s : String) (c : Char) : Bool :=
  match s.toList with
  | x :: _ => x = c
  | [] => false

/-- Python `s.endswith(c)` for a one-character suffix. -/
def pyEndsWithChar (s : String) (c : Char) : Bool :=
  match s.toList.getLast? with
  | some x => x = c
  | Option.none => false

/-- Character property behind Python `str.isdigit`, restricted to the
Latin-1 range: ASCII digits plus the superscripts `¹`, `²`, `³`. -/
def pyCharIsDigit (c : Char) : Bool :=
  c.isDigit || c = '¹' || c = '²' || c = '³'

/-- Python `s.isdigit()`: non-empty and every character has the digit
property. -/
def pyStrIsDigit (s : String) : Bool :=
  !s.isEmpty && s.toList.all pyCharIsDigit

/-- Python `int(s)` for a string all of whose characters satisfy the
`isdigit` property (the only strings the age validator feeds it, so no
sign, whitespace or underscore can occur): it succeeds exactly when every
character is a decimal digit, returning the base-10 value, and raises
`ValueError` otherwise (for example on a superscript digit). -/
def pyInt (s : String) : Except String Int :=
  if !s.isEmpty && s.toList.all Char.isDigit then
    .ok ((s.toList.foldl (fun n c => 10 * n + (c.toNat - 48)) 0 : Nat) : Int)
  else
    .error "ValueError: invalid literal for int() with base 10"

/-! ## Email validator (`check_invalid_emails`, source lines 80-140) -/

/-- Issues the email validator appends for the record at row `idx`.  Each
branch mirrors one rule of the source loop body, including the stray
`"issue"` key (instead of `"reason"`) in the at-sign-count rule. -/
def emailIssues (idx : Nat) (record : Record) : List Issue :=
  let email := pyStrip (record.getD "email" "")
  if email = "" then
    [{ row := idx, field := "email", value := .str email,
       reason := some "email missing or empty" }]
  else if email.toList.count '@' ≠ 1 then
    [{ row := idx, field := "email", value := .str email,
       issueMsg := some "missing or multiple @", severity := some "warning" }]
  else
    match pySplit '@' email with
    | [l, d] =>
      if l = "" ∨ d = "" then
        [{ row := idx, field := "email", value := .str email,
           reason := some "Invalid local or domain part", severity := some "warning" }]
      else if !pyContainsChar d '.' then
        [{ row := idx, field := "email", value := .str email,
           reason := some "domain missing dot", severity := some "warning" }]
      else if pyStartsWithChar d '.' || pyEndsWithChar d '.' then
        [{ row := idx, field := "email", value := .str email,
           reason := some "domain starts or ends with a dot", severity := some "warning" }]
      else []
    | _ => []

/-- The email validator: appends the per-row issues over
`enumerate(records, start=1)`. -/
def check_invalid_emails (records : List Record) : List Issue :=
  (records.enumFrom 1).flatMap fun p => emailIssues p.1 p.2

/-! ## Age validator (`check_invalid_ages`, source lines 142-182)

The loop body can raise: `int(age_raw)` is reached whenever
`age_raw.isdigit()` holds, which does not guarantee that the conversion
succeeds.  The embedding therefore lives in `Except String`. -/

/-- Issues the age validator appends for the record at row `idx`, or the
uncaught `ValueError` from `int(age_raw)`. -/
def ageIssues (idx : Nat) (record : Record) : Except String (List Issue) := do
  let age_raw := pyStrip (record.getD "age" "")
  if age_raw = "" then
    pure [{ row := idx, field := "age", value := .str age_raw,
            reason := some "age missing", severity := some "warning" }]
  else if !pyStrIsDigit age_raw then
    pure [{ row := idx, field := "age", value := .str age_raw,
            reason := some "age not numerical", severity := some "warning" }]
  else do
    let age ← pyInt age_raw
    if age < 1 ∨ age > 120 then
      pure [{ row := idx, field := "age", value := .int age,
              reason := some "age out of range", severity := some "warning" }]
    else
      pure []

/-- The age validator loop: accumulates issues row by row and propagates an
uncaught exception from any row. -/
def check_invalid_ages (records : List Record) : Except String (List Issue) :=
  (records.enumFrom 1).foldlM
    (fun issues p => do
      let new ← ageIssues p.1 p.2
      pure (issues ++ new))
    []

/-! ## Country validator (`resolve_country`, `check_invalid_countries`,
source lines 188-221)

The exact-name lookup delegates to the external `pycountry` library, which
is outside this repository.  Modelled from the spec: the lookup against an
authoritative ISO country-name reference dataset, returning the canonical
English short name on success and nothing on failure, is represented by an
explicit function parameter `lookup`; every theorem below holds for every
such dataset. -/

def UK_ALIASES : List String := ["UK", "U.K.", "UNITED KINGDOM"]

/-- Python truthiness of an optional string: falsy when absent or empty. -/
def pyFalsyOptStr : Option String → Bool
  | Option.none => true
  | some s => s = ""

/-- Resolve a raw country value to a canonical name, or nothing. -/
def resolve_country (lookup : String → Option String) (value : Option String) :
    Option String :=
  match value with
  | Option.none => Option.none
  | some v =>
    if v = "" then Option.none
    else
      let raw := pyUpper (pyStrip v)
      if raw ∈ UK_ALIASES then some "United Kingdom"
      else lookup raw

/-- Conversion of the raw optional country value into the `value` entry of
the issue dictionary: Python stores the string or `None` as-is. -/
def pyValOfOpt : Option String → PyVal
  | Option.none => PyVal.none
  | some s => PyVal.str s

/-- Issues the country validator appends for the record at row `idx`.  The
field is read with `record.get("country")` (no default), and the emitted
value is the raw input as-is. -/
def countryIssues (lookup : String → Option String) (idx : Nat)
    (record : Record) : List Issue :=
  let raw_country := record.get "country"
  let resolved := resolve_country lookup raw_country
  if pyFalsyOptStr resolved then
    [{ row := idx, field := "country", value := pyValOfOpt raw_country,
       reason := some "country missing or null", severity := some "warning" }]
  else []

/-- The country validator loop. -/
def check_invalid_countries (lookup : String → Option String)
    (records : List Record) : List Issue :=
  (records.enumFrom 1).flatMap fun p => countryIssues lookup p.1 p.2

/-! ## Dates and `strptime`

`check_invalid_signup_dates` parses with
`datetime.strptime(raw_date, fmt).date()` for the formats `%d/%m/%Y` and
`%y/%m/%d`.  CPython compiles each format into a regular expression
(`_strptime.TimeRE`): `%d` becomes `(3[01]|[12]\d|0[1-9]|[1-9])`, `%m`
becomes `(1[0-2]|0[1-9]|[1-9])`, `%Y` four digits, `%y` two digits, and the
slash is a literal.  The expression is matched at the start of the string
with the usual leftmost backtracking semantics; a match that leaves
unconverted characters raises `ValueError`, and after a complete match the
`datetime` constructor validates the calendar date (raising `ValueError`
on, for example, the 31st of February or year 0).  The digit class is
modelled as the ASCII digits, exact on the Latin-1 range. -/

structure Date where
  year : Nat
  month : Nat
  day : Nat
  deriving DecidableEq, Repr

def isLeapYear (y : Nat) : Bool :=
  y % 4 = 0 && (y % 100 ≠ 0 || y % 400 = 0)

def daysInMonth (y m : Nat) : Nat :=
  if m = 2 then (if isLeapYear y then 29 else 28)
  else if m = 4 ∨ m = 6 ∨ m = 9 ∨ m = 11 then 30
  else 31

/-- The `datetime.date` constructor: succeeds exactly on valid proleptic
Gregorian calendar dates with year between 1 and 9999. -/
def mkDate (y m d : Nat) : Option Date :=
  if 1 ≤ y ∧ y ≤ 9999 ∧ 1 ≤ m ∧ m ≤ 12 ∧ 1 ≤ d ∧ d ≤ daysInMonth y m then
    some ⟨y, m, d⟩
  else Option.none

/-- Strict calendar-date comparison (by year, then month, then day). -/
def Date.lt (a b : Date) : Bool :=
  Nat.blt a.year b.year ||
    (a.year = b.year &&
      (Nat.blt a.month b.month ||
        (a.month = b.month && Nat.blt a.day b.day)))

def digitVal (c : Char) : Nat := c.toNat - 48

/-- Candidate matches of the `%d` pattern `(3[01]|[12]\d|0[1-9]|[1-9])` at
the head of `cs`, in the backtracking order of the alternation. -/
def dayAlts (cs : List Char) : List (Nat × List Char) :=
  (match cs with
   | '3' :: c :: rest =>
     if c = '0' ∨ c = '1' then [(30 + digitVal c, rest)] else []
   | _ => []) ++
  (match cs with
   | a :: c :: rest =>
     if (a = '1' ∨ a = '2') ∧ c.isDigit then
       [(10 * digitVal a + digitVal c, rest)]
     else []
   | _ => []) ++
  (match cs with
   | '0' :: c :: rest =>
     if '1' ≤ c ∧ c ≤ '9' then [(digitVal c, rest)] else []
   | _ => []) ++
  (match cs with
   | c :: rest =>
     if '1' ≤ c ∧ c ≤ '9' then [(digitVal c, rest)] else []
   | _ => [])

/-- Candidate matches of the `%m` pattern `(1[0-2]|0[1-9]|[1-9])` at the
head of `cs`, in backtracking order. -/
def monthAlts (cs : List Char) : List (Nat × List Char) :=
  (match cs with
   | '1' :: c :: rest =>
     if c = '0' ∨ c = '1' ∨ c = '2' then [(10 + digitVal c, rest)] else []
   | _ => []) ++
  (match cs with
   | '0' :: c :: rest =>
     if '1' ≤ c ∧ c ≤ '9' then [(digitVal c, rest)] else []
   | _ => []) ++
  (match cs with
   | c :: rest =>
     if '1' ≤ c ∧ c ≤ '9' then [(digitVal c, rest)] else []
   | _ => [])

/-- Literal slash in the compiled format expression. -/
def expectSlash : List Char → Option (List Char)
  | '/' :: rest => some rest
  | _ => Option.none

/-- The `%Y` pattern: exactly four digits. -/
def year4 : List Char → Option (Nat × List Char)
  | a :: b :: c :: d :: rest =>
    if a.isDigit ∧ b.isDigit ∧ c.isDigit ∧ d.isDigit then
      some (1000 * digitVal a + 100 * digitVal b + 10 * digitVal c + digitVal d, rest)
    else Option.none
  | _ => Option.none

/-- The `%y` pattern: exactly two digits. -/
def year2 : List Char → Option (Nat × List Char)
  | a :: b :: rest =>
    if a.isDigit ∧ b.isDigit then some (10 * digitVal a + digitVal b, rest)
    else Option.none
  | _ => Option.none

/-- First match (in backtracking order) of the compiled `%d/%m/%Y`
expression at the start of `cs`: day, month, year and the unconsumed
remainder. -/
def matchDDMMYYYY (cs : List Char) :
    Option (Nat × Nat × Nat × List Char) :=
  (dayAlts cs).findSome? fun dp =>
    (expectSlash dp.2).bind fun r2 =>
      (monthAlts r2).findSome? fun mp =>
        (expectSlash mp.2).bind fun r4 =>
          (year4 r4).map fun yp => (dp.1, mp.1, yp.1, yp.2)

/-- First match of the compiled `%y/%m/%d` expression: two-digit year,
month, day and the unconsumed remainder. -/
def matchYYMMDD (cs : List Char) :
    Option (Nat × Nat × Nat × List Char) :=
  (year2 cs).bind fun yp =>
    (expectSlash yp.2).bind fun r2 =>
      (monthAlts r2).findSome? fun mp =>
        (expectSlash mp.2).bind fun r4 =>
          (dayAlts r4).findSome? fun dp =>
            some (yp.1, mp.1, dp.1, dp.2)

/-- `datetime.strptime(s, "%d/%m/%Y").date()` as an option: the first
regex match must consume the whole string and then survive calendar
validation. -/
def strptime_ddmmyyyy (s : String) : Option Date :=
  match matchDDMMYYYY s.toList with
  | some (d, m, y, rest) => if rest = [] then mkDate y m d else Option.none
  | Option.none => Option.none

/-- `datetime.strptime(s, "%y/%m/%d").date()` as an option, applying the
CPython two-digit-year rule: years up to 68 map into the 2000s, the rest
into the 1900s. -/
def strptime_yymmdd (s : String) : Option Date :=
  match matchYYMMDD s.toList with
  | some (yy, m, d, rest) =>
    if rest = [] then mkDate (if yy ≤ 68 then 2000 + yy else 1900 + yy) m d
    else Option.none
  | Option.none => Option.none

/-- The ordered `accepted_formats` list of the source. -/
def accepted_formats : List (String → Option Date) :=
  [strptime_ddmmyyyy, strptime_yymmdd]

/-! ## Signup date validator (`check_invalid_signup_dates`,
source lines 223-275) -/

/-- Issues the signup-date validator appends for the record at row `idx`,
given the value of `date.today()` captured once per run. -/
def signupIssues (today : Date) (idx : Nat) (record : Record) : List Issue :=
  let raw_date := pyStrip (record.getD "signup_date" "")
  if raw_date = "" then
    [{ row := idx, field := "signup_date", value := .str raw_date,
       reason := some "signup date missing or empty", severity := some "warning" }]
  else
    match accepted_formats.findSome? (fun fmt => fmt raw_date) with
    | Option.none =>
      [{ row := idx, field := "signup_date", value := .str raw_date,
         reason := some "Invalid date format", severity := some "warning" }]
    | some parsed_date =>
      if Date.lt today parsed_date then
        [{ row := idx, field := "signup_date", value := .str raw_date,
           reason := some "signup_date is in the future", severity := some "warning" }]
      else []

/-- The signup-date validator loop. -/
def check_invalid_signup_dates (today : Date) (records : List Record) :
    List Issue :=
  (records.enumFrom 1).flatMap fun p => signupIssues today p.1 p.2

/-! ## Aggregation, summary and exit code (source lines 277-304, 341-347,
367-404) -/

/-- Per-severity tallies (the `counts` dictionary). -/
structure SevCounts where
  info : Nat
  warning : Nat
  error : Nat
  deriving DecidableEq, Repr

/-- The summary dictionary. -/
structure Summary where
  total_records : Nat
  total_issues : Nat
  severity_counts : SevCounts
  deriving DecidableEq, Repr

/-- Keep the issues whose effective severity rank (severity defaulting to
`warning` when the key is absent, and unknown severities ranking 0) is at
least the rank of the threshold. -/
def filter_issues_by_severity (issues : List Issue) (threshold : Threshold) :
    List Issue :=
  issues.filter fun issue =>
    (SEVERITY_RANK (issue.severity.getD "warning")).getD 0 ≥ threshold.rank

/-- Tally issues per severity level; an issue whose effective severity is
not a key of the `counts` dictionary is skipped. -/
def count_issues_by_severity (issues : List Issue) : SevCounts :=
  issues.foldl
    (fun counts issue =>
      match issue.severity.getD "warning" with
      | "info" => { counts with info := counts.info + 1 }
      | "warning" => { counts with warning := counts.warning + 1 }
      | "error" => { counts with error := counts.error + 1 }
      | _ => counts)
    ⟨0, 0, 0⟩

def build_summary (records : List Record) (issues : List Issue) : Summary :=
  { total_records := records.length,
    total_issues := issues.length,
    severity_counts := count_issues_by_severity issues }

/-- Map the aggregated results to a process exit code. -/
def determine_exit_code (summary : Summary) (issues : List Issue)
    (args : Args) : Nat :=
  if summary.total_records = 0 then EXIT_OK
  else
    let blocking := filter_issues_by_severity issues args.severity_threshold
    if blocking ≠ [] ∧ args.fail_on_warning then EXIT_WARNING
    else if blocking ≠ [] then EXIT_ISSUES_FOUND
    else EXIT_OK

/-- Run the four validators in order and concatenate their issues;
propagates the uncaught exception the age validator can raise. -/
def run_all_checks (lookup : String → Option String) (today : Date)
    (records : List Record) : Except String (List Issue) := do
  let emails := check_invalid_emails records
  let ages ← check_invalid_ages records
  let countries := check_invalid_countries lookup records
  let dates := check_invalid_signup_dates today records
  pure (emails ++ ages ++ countries ++ dates)

/-- The pure data flow of `main` after loading: all issues, the summary
built from the unfiltered issues, the filtered issues handed to the
exporters, and the exit code computed from the summary and the filtered
issues. -/
def mainResult (lookup : String → Option String) (today : Date)
    (records : List Record) (args : Args) :
    Except String (Summary × List Issue × Nat) := do
  let all_issues ← run_all_checks lookup today records
  let summary := build_summary records all_issues
  let filtered_issues := filter_issues_by_severity all_issues args.severity_threshold
  pure (summary, filtered_issues, determine_exit_code summary filtered_issues args)

/-! ## Shared lemmas -/

/-- Characterisation of the counting fold for an arbitrary accumulator. -/
lemma count_foldl (issues : List Issue) : ∀ acc : SevCounts,
    issues.foldl
      (fun counts issue =>
        match issue.severity.getD "warning" with
        | "info" => { counts with info := counts.info + 1 }
        | "warning" => { counts with warning := counts.warning + 1 }
        | "error" => { counts with error := counts.error + 1 }
        | _ => counts)
      acc =
      ⟨acc.info + issues.countP (fun i => i.severity.getD "warning" == "info"),
       acc.warning + issues.countP (fun i => i.severity.getD "warning" == "warning"),
       acc.error + issues.countP (fun i => i.severity.getD "warning" == "error")⟩ := by
  induction issues with
  | nil => intro acc; simp
  | cons i tl ih =>
    intro acc
    simp only [List.foldl_cons, List.countP_cons]
    rw [ih]
    clear ih
    split <;> simp_all <;> omega

/-- The three tallies, closed form. -/
lemma count_issues_by_severity_spec (issues : List Issue) :
    count_issues_by_severity issues =
      ⟨issues.countP (fun i => i.severity.getD "warning" == "info"),
       issues.countP (fun i => i.severity.getD "warning" == "warning"),
       issues.countP (fun i => i.severity.getD "warning" == "error")⟩ := by
  unfold count_issues_by_severity
  rw [count_foldl]
  simp

/-- The three tallies sum to the number of issues whose effective severity
is one of the three known levels. -/
lemma count_sum (issues : List Issue) :
    issues.countP (fun i => i.severity.getD "warning" == "info") +
      issues.countP (fun i => i.severity.getD "warning" == "warning") +
      issues.countP (fun i => i.severity.getD "warning" == "error") =
      issues.countP
        (fun i =>
          i.severity.getD "warning" == "info" ||
            i.severity.getD "warning" == "warning" ||
            i.severity.getD "warning" == "error") := by
  induction issues with
  | nil => simp
  | cons i tl ih =>
    simp only [List.countP_cons]
    by_cases h1 : i.severity.getD "warning" = "info"
    · simp_all; omega
    · by_cases h2 : i.severity.getD "warning" = "warning"
      · simp_all; omega
      · by_cases h3 : i.severity.getD "warning" = "error"
        · simp_all; omega
        · simp_all

/-- Every issue the email validator emits has severity `warning` or an
absent severity key. -/
lemma emailIssues_severity (idx : Nat) (r : Record) :
    ∀ iss ∈ emailIssues idx r,
      iss.severity = some "warning" ∨ iss.severity = Option.none := by
  intro iss h
  simp only [emailIssues] at h
  split at h
  · simp_all
  · split at h
    · simp_all
    · split at h
      all_goals try split at h
      all_goals try split at h
      all_goals try split at h
      all_goals simp_all

/-- Every issue the age validator returns normally has severity
`warning`. -/
lemma ageIssues_severity (idx : Nat) (r : Record) (res : List Issue)
    (hres : ageIssues idx r = .ok res) :
    ∀ iss ∈ res, iss.severity = some "warning" := by
  intro iss h
  simp only [ageIssues] at hres
  split at hres
  · (try simp only [pure, Except.pure, Except.ok.injEq] at hres)
    subst hres; simp_all
  · split at hres
    · (try simp only [pure, Except.pure, Except.ok.injEq] at hres)
      subst hres; simp_all
    · cases hint : pyInt (pyStrip (r.getD "age" "")) with
      | error e => simp_all [hint, Except.bind, bind]
      | ok age =>
        rw [hint] at hres
        simp only [bind, Except.bind] at hres
        split at hres <;>
          ((try simp only [pure, Except.pure, Except.ok.injEq] at hres);
            subst hres; simp_all)

/-- Every issue the country validator emits has severity `warning`. -/
lemma countryIssues_severity (lookup : String → Option String) (idx : Nat)
    (r : Record) :
    ∀ iss ∈ countryIssues lookup idx r, iss.severity = some "warning" := by
  intro iss h
  simp only [countryIssues] at h
  split at h <;> simp_all

/-- Every issue the signup-date validator emits has severity `warning`. -/
lemma signupIssues_severity (today : Date) (idx : Nat) (r : Record) :
    ∀ iss ∈ signupIssues today idx r, iss.severity = some "warning" := by
  intro iss h
  simp only [signupIssues] at h
  split at h
  · simp_all
  · split at h
    · simp_all
    · split at h <;> simp_all

/-- The accumulating fold of the age validator preserves the severity
invariant of its accumulator. -/
lemma ages_foldlM_severity (l : List (Nat × Record)) :
    ∀ (acc res : List Issue),
      (l.foldlM
          (fun issues p => do
            let new ← ageIssues p.1 p.2
            pure (issues ++ new))
          acc) = .ok res →
      (∀ iss ∈ acc, iss.severity = some "warning") →
      ∀ iss ∈ res, iss.severity = some "warning" := by
  induction l with
  | nil =>
    intro acc res h hacc
    simp only [List.foldlM_nil, pure, Except.pure, Except.ok.injEq] at h
    subst h
    exact hacc
  | cons p tl ih =>
    intro acc res h hacc
    rw [List.foldlM_cons] at h
    cases hp : ageIssues p.1 p.2 with
    | error e => simp_all [bind, Except.bind]
    | ok new =>
      rw [hp] at h
      simp only [bind, Except.bind, pure, Except.pure] at h
      refine ih (acc ++ new) res h ?_
      intro iss hm
      rcases List.mem_append.mp hm with hm | hm
      · exact hacc iss hm
      · exact ageIssues_severity p.1 p.2 new hp iss hm

/-- Every issue returned normally by the age validator over a record list
has severity `warning`. -/
lemma check_invalid_ages_severity (records : List Record)
    (ages : List Issue) (h : check_invalid_ages records = .ok ages) :
    ∀ iss ∈ ages, iss.severity = some "warning" := by
  refine ages_foldlM_severity (records.enumFrom 1) [] ages ?_ (by simp)
  exact h

/-- Every issue a successful full run produces has severity `warning` or
an absent severity key. -/
lemma run_all_checks_severity (lookup : String → Option String)
    (today : Date) (records : List Record) (issues : List Issue)
    (h : run_all_checks lookup today records = .ok issues) :
    ∀ iss ∈ issues,
      iss.severity = some "warning" ∨ iss.severity = Option.none := by
  unfold run_all_checks at h
  cases hA : check_invalid_ages records with
  | error e => simp_all [bind, Except.bind]
  | ok ages =>
    rw [hA] at h
    simp only [bind, Except.bind, pure, Except.pure, Except.ok.injEq] at h
    subst h
    intro iss hm
    simp only [List.mem_append] at hm
    rcases hm with ((hm | hm) | hm) | hm
    · rcases List.mem_flatMap.mp hm with ⟨p, _, hp⟩
      exact emailIssues_severity p.1 p.2 iss hp
    · exact Or.inl (check_invalid_ages_severity records ages hA iss hm)
    · rcases List.mem_flatMap.mp hm with ⟨p, _, hp⟩
      exact Or.inl (countryIssues_severity lookup p.1 p.2 iss hp)
    · rcases List.mem_flatMap.mp hm with ⟨p, _, hp⟩
      exact Or.inl (signupIssues_severity today p.1 p.2 iss hp)

/-- Issues whose severity is `warning` or unset are all removed by the
`error` threshold. -/
lemma filter_error_of_warning (issues : List Issue)
    (h : ∀ iss ∈ issues,
        iss.severity = some "warning" ∨ iss.severity = Option.none) :
    filter_issues_by_severity issues .error = [] := by
  unfold filter_issues_by_severity
  rw [List.filter_eq_nil_iff]
  intro iss hm
  rcases h iss hm with hs | hs <;> simp [hs, Threshold.rank, Threshold.toStr, SEVERITY_RANK]

/-! ## Claims -/

/-- C1.  The claim asserts every validator is total on malformed string
field data, in particular that `int(age_raw)` cannot fail once
`age_raw.isdigit()` has passed.  The code violates this: the superscript
digit two satisfies the `isdigit` guard but is not a decimal digit, so
`int` raises an uncaught `ValueError` inside `check_invalid_ages`.  This
theorem evaluates the embedded age validator at that failing input. -/
theorem c1_age_validator_raises :
    check_invalid_ages [⟨[("age", "²")]⟩] =
      .error "ValueError: invalid literal for int() with base 10" := by
  rfl

/-- C2.  `determine_exit_code` returns 0 on zero records regardless of
issues, threshold and flag; otherwise it returns 5 when the
threshold-filtered issues are non-empty and `--fail-on-warning` is set,
10 when they are non-empty without the flag, and 0 when they are empty. -/
theorem c2_determine_exit_code_spec (summary : Summary) (issues : List Issue)
    (args : Args) :
    determine_exit_code summary issues args =
      if summary.total_records = 0 then 0
      else if filter_issues_by_severity issues args.severity_threshold = [] then 0
      else if args.fail_on_warning then 5 else 10 := by
  unfold determine_exit_code EXIT_OK EXIT_WARNING EXIT_ISSUES_FOUND
  split_ifs <;> simp_all

/-- C3.  The claim says the at-sign-count issue carries reason
"missing or multiple @".  The code stores that message under the dict key
`issue` and sets no `reason` key at all: at the concrete record
`{email: "bob@@x.com"}` the single issue produced has an absent reason
and the message under the stray key. -/
theorem c3_at_rule_misses_reason_key :
    check_invalid_emails [⟨[("email", "bob@@x.com")]⟩] =
      [{ row := 1, field := "email", value := .str "bob@@x.com",
         issueMsg := some "missing or multiple @",
         severity := some "warning" }] ∧
    (check_invalid_emails [⟨[("email", "bob@@x.com")]⟩]).map Issue.reason =
      [Option.none] := by
  constructor <;> rfl

/-- C6.  Raising the severity threshold never increases the number of
filtered issues. -/
theorem c6_severity_filter_monotone (issues : List Issue)
    (t1 t2 : Threshold) (h : t1.rank ≤ t2.rank) :
    (filter_issues_by_severity issues t2).length ≤
      (filter_issues_by_severity issues t1).length := by
  unfold filter_issues_by_severity
  refine List.Sublist.length_le (List.monotone_filter_right _ ?_)
  intro iss hk
  simp only [decide_eq_true_eq] at hk ⊢
  omega

/-- Witness for C6 at a concrete issue list and the pair info ≤ error. -/
theorem c6_witness :
    Threshold.rank .info ≤ Threshold.rank .error ∧
      (filter_issues_by_severity
          [{ row := 1, field := "age", value := .str "", severity := some "warning" }]
          .error).length ≤
        (filter_issues_by_severity
          [{ row := 1, field := "age", value := .str "", severity := some "warning" }]
          .info).length :=
  ⟨by decide,
   c6_severity_filter_monotone
     [{ row := 1, field := "age", value := .str "", severity := some "warning" }]
     .info .error (by decide)⟩

/-- C7.  The claim says unknown severities are counted under warning, so
the three counts always sum to the list length.  The code skips an issue
whose severity is set to a value outside the dictionary: one issue with
severity "critical" is tallied nowhere and the counts sum to 0, not 1. -/
theorem c7_unknown_severity_dropped_cex :
    count_issues_by_severity
        [{ row := 1, field := "age", value := .str "x", severity := some "critical" }] =
      ⟨0, 0, 0⟩ ∧
    (0 + 0 + 0 : Nat) ≠
      ([{ row := 1, field := "age", value := PyVal.str "x",
          severity := some "critical" }] : List Issue).length := by
  constructor
  · rfl
  · decide

/-- C7, amended.  `count_issues_by_severity` tallies each known level, an
unset severity counting under warning; an issue whose severity is set to
an unknown value is not counted anywhere, so the three counts sum to the
number of issues whose effective severity is one of the three known
levels (not necessarily the list length). -/
theorem c7_count_by_severity_spec (issues : List Issue) :
    count_issues_by_severity issues =
      ⟨issues.countP (fun i => i.severity.getD "warning" == "info"),
       issues.countP (fun i => i.severity.getD "warning" == "warning"),
       issues.countP (fun i => i.severity.getD "warning" == "error")⟩ ∧
    (count_issues_by_severity issues).info +
        (count_issues_by_severity issues).warning +
        (count_issues_by_severity issues).error =
      issues.countP
        (fun i =>
          i.severity.getD "warning" == "info" ||
            i.severity.getD "warning" == "warning" ||
            i.severity.getD "warning" == "error") := by
  refine ⟨count_issues_by_severity_spec issues, ?_⟩
  rw [count_issues_by_severity_spec issues]
  exact count_sum issues

/-- C4.  The claim says `severity_counts` tallies the severity-filtered
issues actually reported.  The code builds the summary from the unfiltered
issue list before filtering: with one all-defective record and threshold
`error`, the exported issue list is empty (count all zero) while the
summary carries the warning tally 4 of the unfiltered set. -/
theorem c4_counts_not_filtered_cex :
    mainResult (fun _ => Option.none) ⟨2026, 10, 12⟩ [⟨[]⟩]
        ⟨Threshold.error, false⟩ =
      .ok ({ total_records := 1, total_issues := 4,
             severity_counts := ⟨0, 4, 0⟩ },
           ([] : List Issue), 0) ∧
    count_issues_by_severity ([] : List Issue) = ⟨0, 0, 0⟩ ∧
    (⟨0, 4, 0⟩ : SevCounts) ≠ (⟨0, 0, 0⟩ : SevCounts) := by
  refine ⟨by rfl, by rfl, by decide⟩

/-- C4, amended.  The summary `main` builds has `total_issues` equal to
the count of all issues produced before severity filtering, and
`severity_counts` tallies that same unfiltered issue set (not the
filtered set actually reported and exported). -/
theorem c4_summary_from_unfiltered (lookup : String → Option String)
    (today : Date) (records : List Record) (args : Args)
    (issues : List Issue)
    (h : run_all_checks lookup today records = .ok issues) :
    mainResult lookup today records args =
      .ok (build_summary records issues,
           filter_issues_by_severity issues args.severity_threshold,
           determine_exit_code (build_summary records issues)
             (filter_issues_by_severity issues args.severity_threshold) args) ∧
    (build_summary records issues).total_issues = issues.length ∧
    (build_summary records issues).severity_counts =
      count_issues_by_severity issues := by
  refine ⟨?_, rfl, rfl⟩
  unfold mainResult
  rw [h]
  rfl

/-- Witness for C4 at a concrete record set where all validators pass. -/
theorem c4_witness :
    run_all_checks (fun _ => Option.none) ⟨2026, 10, 12⟩
        [⟨[("email", "a@b.c"), ("age", "30"), ("country", "UK"),
           ("signup_date", "01/01/2020")]⟩] = .ok [] ∧
    (build_summary
        [⟨[("email", "a@b.c"), ("age", "30"), ("country", "UK"),
           ("signup_date", "01/01/2020")]⟩] ([] : List Issue)).severity_counts =
      count_issues_by_severity ([] : List Issue) :=
  ⟨by rfl,
   (c4_summary_from_unfiltered (fun _ => Option.none) ⟨2026, 10, 12⟩
      [⟨[("email", "a@b.c"), ("age", "30"), ("country", "UK"),
         ("signup_date", "01/01/2020")]⟩]
      ⟨Threshold.warning, false⟩ [] (by rfl)).2.2⟩

/-- C5.  The claim says all four validators read the field via
`record.get(field, "")`, making an absent field identical to an
empty-string field.  The country validator reads `record.get("country")`
with no default: an absent country yields an issue with value `None`
while an empty-string country yields value `""`, so the outputs differ. -/
theorem c5_absent_vs_empty_cex :
    check_invalid_countries (fun _ => Option.none) [⟨[]⟩] ≠
      check_invalid_countries (fun _ => Option.none) [⟨[("country", "")]⟩] := by
  decide

/-- C5, amended.  The email, age and signup-date validators read their
field via `record.get(field, "")`, so each of them treats a record only
through that defaulted read (absent and empty-string fields behave
identically); the country validator reads `record.get("country")` with no
default, and when resolution fails its issue carries the raw input
as-is (`None` for an absent field, the unnormalised string otherwise). -/
theorem c5_field_reads (today : Date) :
    (∀ r1 r2 : Record, r1.getD "email" "" = r2.getD "email" "" →
        check_invalid_emails [r1] = check_invalid_emails [r2]) ∧
    (∀ r1 r2 : Record, r1.getD "age" "" = r2.getD "age" "" →
        check_invalid_ages [r1] = check_invalid_ages [r2]) ∧
    (∀ r1 r2 : Record,
        r1.getD "signup_date" "" = r2.getD "signup_date" "" →
        check_invalid_signup_dates today [r1] =
          check_invalid_signup_dates today [r2]) ∧
    (∀ (lookup : String → Option String) (r : Record),
        pyFalsyOptStr (resolve_country lookup (r.get "country")) = true →
        check_invalid_countries lookup [r] =
          [{ row := 1, field := "country",
             value := pyValOfOpt (r.get "country"),
             reason := some "country missing or null",
             severity := some "warning" }]) := by
  refine ⟨?_, ?_, ?_, ?_⟩
  · intro r1 r2 h
    have e : emailIssues 1 r1 = emailIssues 1 r2 := by
      unfold emailIssues; rw [h]
    simp [check_invalid_emails, List.enumFrom, e]
  · intro r1 r2 h
    have e : ageIssues 1 r1 = ageIssues 1 r2 := by
      unfold ageIssues; rw [h]
    simp [check_invalid_ages, List.enumFrom, List.foldlM_cons, List.foldlM_nil, e]
  · intro r1 r2 h
    have e : signupIssues today 1 r1 = signupIssues today 1 r2 := by
      unfold signupIssues; rw [h]
    simp [check_invalid_signup_dates, List.enumFrom, e]
  · intro lookup r h
    simp [check_invalid_countries, List.enumFrom, countryIssues, h]

/-- Witness for C5: the email validator at an absent versus empty field,
and the country validator at an absent field. -/
theorem c5_witness :
    (Record.getD ⟨[]⟩ "email" "" = Record.getD ⟨[("email", "")]⟩ "email" "" ∧
     check_invalid_emails [⟨[]⟩] = check_invalid_emails [⟨[("email", "")]⟩]) ∧
    (pyFalsyOptStr
        (resolve_country (fun _ => Option.none)
          (Record.get ⟨[]⟩ "country")) = true ∧
     check_invalid_countries (fun _ => Option.none) [⟨[]⟩] =
       [{ row := 1, field := "country",
          value := pyValOfOpt (Record.get ⟨[]⟩ "country"),
          reason := some "country missing or null",
          severity := some "warning" }]) :=
  ⟨⟨by rfl, (c5_field_reads ⟨2026, 10, 12⟩).1 ⟨[]⟩ ⟨[("email", "")]⟩ (by rfl)⟩,
   ⟨by rfl, (c5_field_reads ⟨2026, 10, 12⟩).2.2.2 (fun _ => Option.none) ⟨[]⟩ (by rfl)⟩⟩

/-- C10.  Filtering by severity is idempotent at any threshold, so the
blocking set `determine_exit_code` recomputes from the already-filtered
list `main` hands it coincides with the list itself. -/
theorem c10_filter_idempotent (issues : List Issue) (t : Threshold) :
    filter_issues_by_severity (filter_issues_by_severity issues t) t =
      filter_issues_by_severity issues t := by
  simp [filter_issues_by_severity, List.filter_filter]

/-- Every issue the signup-date validator emits for a row carries that
row number. -/
lemma signupIssues_row (today : Date) :
    ∀ (idx : Nat) (r : Record) (iss : Issue),
      iss ∈ signupIssues today idx r → iss.row = idx := by
  intro idx r iss h
  simp only [signupIssues] at h
  split at h
  · simp_all
  · split at h
    · simp_all
    · split at h <;> simp_all

/-- Rows of issues produced over `enumFrom start` are at least `start`,
provided the producer stamps its row argument on every issue. -/
lemma row_lower_bound (f : Nat → Record → List Issue)
    (hrow : ∀ (idx : Nat) (r : Record) (iss : Issue),
      iss ∈ f idx r → iss.row = idx) :
    ∀ (records : List Record) (start : Nat) (iss : Issue),
      iss ∈ (records.enumFrom start).flatMap (fun p => f p.1 p.2) →
      start ≤ iss.row := by
  intro records
  induction records with
  | nil => intro start iss h; simp [List.enumFrom] at h
  | cons r tl ih =>
    intro start iss h
    simp only [List.enumFrom, List.flatMap_cons, List.mem_append] at h
    rcases h with h | h
    · exact Nat.le_of_eq (hrow start r iss h).symm
    · exact Nat.le_of_succ_le (ih (start + 1) iss h)

/-- Selecting by row number from the per-row concatenation yields exactly
the issues of the record at that row. -/
lemma filter_row_flatMap (f : Nat → Record → List Issue)
    (hrow : ∀ (idx : Nat) (r : Record) (iss : Issue),
      iss ∈ f idx r → iss.row = idx) :
    ∀ (records : List Record) (start i : Nat) (r : Record),
      records.get? i = some r →
      ((records.enumFrom start).flatMap (fun p => f p.1 p.2)).filter
          (fun iss => iss.row == start + i) = f (start + i) r := by
  intro records
  induction records with
  | nil => intro start i r h; simp at h
  | cons hd tl ih =>
    intro start i r h
    simp only [List.enumFrom, List.flatMap_cons, List.filter_append]
    cases i with
    | zero =>
      simp only [List.get?_cons_zero, Option.some.injEq] at h
      subst h
      have h1 : (f start hd).filter (fun iss => iss.row == start + 0) =
          f start hd := by
        rw [List.filter_eq_self]
        intro iss hm
        simp [hrow start hd iss hm]
      have h2 : ((tl.enumFrom (start + 1)).flatMap
            (fun p => f p.1 p.2)).filter
          (fun iss => iss.row == start + 0) = [] := by
        rw [List.filter_eq_nil_iff]
        intro iss hm
        have := row_lower_bound f hrow tl (start + 1) iss hm
        simp only [beq_iff_eq]
        omega
      rw [h1, h2, List.append_nil]
      simp
    | succ j =>
      have hget : tl.get? j = some r := by simpa using h
      have h1 : (f start hd).filter
          (fun iss => iss.row == start + (j + 1)) = [] := by
        rw [List.filter_eq_nil_iff]
        intro iss hm
        have := hrow start hd iss hm
        simp only [beq_iff_eq]
        omega
      have harith : start + (j + 1) = start + 1 + j := by omega
      rw [h1, List.nil_append, harith]
      exact ih (start + 1) j r hget

/-- C8.  For a record with a non-empty trimmed signup date, the validator
tries the format `DD/MM/YYYY` and then `YY/MM/DD`, keeping the first
successful parse; if no format matches it emits exactly the one
invalid-format issue for that row, and if the parsed date lies strictly
after today it emits exactly the one in-the-future issue; in particular
`31/01/2099` parses under the first format and is flagged as in the
future. -/
theorem c8_signup_date_flow (today : Date) (records : List Record)
    (i : Nat) (r : Record) (hr : records.get? i = some r)
    (hne : pyStrip (r.getD "signup_date" "") ≠ "") :
    (accepted_formats.findSome?
        (fun fmt => fmt (pyStrip (r.getD "signup_date" ""))) =
      (match strptime_ddmmyyyy (pyStrip (r.getD "signup_date" "")) with
       | some d => some d
       | Option.none =>
         strptime_yymmdd (pyStrip (r.getD "signup_date" "")))) ∧
    ((check_invalid_signup_dates today records).filter
        (fun iss => iss.row == 1 + i) =
      (match accepted_formats.findSome?
          (fun fmt => fmt (pyStrip (r.getD "signup_date" ""))) with
       | Option.none =>
         [{ row := 1 + i, field := "signup_date",
            value := .str (pyStrip (r.getD "signup_date" "")),
            reason := some "Invalid date format",
            severity := some "warning" }]
       | some parsed =>
         if Date.lt today parsed then
           [{ row := 1 + i, field := "signup_date",
              value := .str (pyStrip (r.getD "signup_date" "")),
              reason := some "signup_date is in the future",
              severity := some "warning" }]
         else [])) ∧
    strptime_ddmmyyyy "31/01/2099" = some ⟨2099, 1, 31⟩ ∧
    check_invalid_signup_dates ⟨2026, 10, 12⟩
        [⟨[("signup_date", "31/01/2099")]⟩] =
      [{ row := 1, field := "signup_date", value := .str "31/01/2099",
         reason := some "signup_date is in the future",
         severity := some "warning" }] := by
  refine ⟨?_, ?_, by rfl, by rfl⟩
  · cases hP : strptime_ddmmyyyy (pyStrip (r.getD "signup_date" "")) with
    | none =>
      simp only [accepted_formats, List.findSome?_cons, hP]
      cases hQ : strptime_yymmdd (pyStrip (r.getD "signup_date" "")) <;>
        simp [List.findSome?_cons, hQ]
    | some d => simp [accepted_formats, List.findSome?_cons, hP]
  · have hfil := filter_row_flatMap (signupIssues today)
      (signupIssues_row today) records 1 i r hr
    unfold check_invalid_signup_dates
    rw [hfil]
    simp only [signupIssues]
    rw [if_neg hne]

/-- Witness for C8 at the concrete record of the scenario. -/
theorem c8_witness :
    ([⟨[("signup_date", "31/01/2099")]⟩] : List Record).get? 0 =
        some ⟨[("signup_date", "31/01/2099")]⟩ ∧
    pyStrip (Record.getD ⟨[("signup_date", "31/01/2099")]⟩
        "signup_date" "") ≠ "" ∧
    accepted_formats.findSome?
        (fun fmt => fmt (pyStrip (Record.getD
          ⟨[("signup_date", "31/01/2099")]⟩ "signup_date" ""))) =
      (match strptime_ddmmyyyy (pyStrip (Record.getD
          ⟨[("signup_date", "31/01/2099")]⟩ "signup_date" "")) with
       | some d => some d
       | Option.none =>
         strptime_yymmdd (pyStrip (Record.getD
           ⟨[("signup_date", "31/01/2099")]⟩ "signup_date" ""))) :=
  ⟨rfl, by decide,
   (c8_signup_date_flow ⟨2026, 10, 12⟩ [⟨[("signup_date", "31/01/2099")]⟩]
      0 ⟨[("signup_date", "31/01/2099")]⟩ rfl (by decide)).1⟩

/-- C9.  Whenever a full run of the validators returns normally, every
issue produced carries severity `warning` or omits the severity key, so
the info and error tallies are always 0, the `error` threshold leaves an
empty blocking set, and the exit code under `--severity-threshold error`
is always 0 (with or without `--fail-on-warning`). -/
theorem c9_all_issues_warning (lookup : String → Option String)
    (today : Date) (records : List Record) (issues : List Issue)
    (fow : Bool)
    (h : run_all_checks lookup today records = .ok issues) :
    (∀ iss ∈ issues,
        iss.severity = some "warning" ∨ iss.severity = Option.none) ∧
    (count_issues_by_severity issues).info = 0 ∧
    (count_issues_by_severity issues).error = 0 ∧
    filter_issues_by_severity issues Threshold.error = [] ∧
    determine_exit_code (build_summary records issues)
        (filter_issues_by_severity issues Threshold.error)
        ⟨Threshold.error, fow⟩ = 0 := by
  have hsev := run_all_checks_severity lookup today records issues h
  have hfil := filter_error_of_warning issues hsev
  have heff : ∀ iss ∈ issues, iss.severity.getD "warning" = "warning" := by
    intro iss hm
    rcases hsev iss hm with hs | hs <;> simp [hs]
  refine ⟨hsev, ?_, ?_, hfil, ?_⟩
  · rw [count_issues_by_severity_spec]
    simp only
    rw [List.countP_eq_zero]
    intro iss hm
    simp [heff iss hm]
  · rw [count_issues_by_severity_spec]
    simp only
    rw [List.countP_eq_zero]
    intro iss hm
    simp [heff iss hm]
  · rw [hfil]
    by_cases h0 : (build_summary records issues).total_records = 0 <;>
      simp [determine_exit_code, h0, EXIT_OK, filter_issues_by_severity]

/-- Witness for C9 at a concrete record whose only defect is an
out-of-range age. -/
theorem c9_witness :
    run_all_checks (fun _ => Option.none) ⟨2026, 10, 12⟩
        [⟨[("email", "x@y.z"), ("age", "200"), ("country", "UK"),
           ("signup_date", "01/01/2020")]⟩] =
      .ok [{ row := 1, field := "age", value := .int 200,
             reason := some "age out of range",
             severity := some "warning" }] ∧
    determine_exit_code
        (build_summary
          [⟨[("email", "x@y.z"), ("age", "200"), ("country", "UK"),
             ("signup_date", "01/01/2020")]⟩]
          [{ row := 1, field := "age", value := .int 200,
             reason := some "age out of range",
             severity := some "warning" }])
        (filter_issues_by_severity
          [{ row := 1, field := "age", value := .int 200,
             reason := some "age out of range",
             severity := some "warning" }] Threshold.error)
        ⟨Threshold.error, true⟩ = 0 :=
  ⟨by rfl,
   (c9_all_issues_warning (fun _ => Option.none) ⟨2026, 10, 12⟩
      [⟨[("email", "x@y.z"), ("age", "200"), ("country", "UK"),
         ("signup_date", "01/01/2020")]⟩]
      [{ row := 1, field := "age", value := .int 200,
         reason := some "age out of range",
         severity := some "warning" }]
      true (by rfl)).2.2.2.2⟩

end DQA
